import Mathlib

/-!
Shallow embedding of the deferred-reminder scheduler of the Mousey bot
(src/packages/bot/src/plugins/reminders/plugin.py, class Reminders).

Timestamps are modelled as integers (seconds).  The external reminder
store is modelled as a list of reminders; the backend API that the
plugin calls (mousey.api) is not part of src/, so its ordered fetch,
get, delete and update operations are modelled from the spec, as noted
on each definition.  Everything else is translated directly from the
plugin source.
-/

/-- A reminder row, as fetched from the store (plugin.py lines 64-71
and the fields read in lines 178-208). -/
structure Reminder where
  id : Nat
  user_id : Nat
  guild_id : Nat
  channel_id : Nat
  message_id : Nat
  expires_at : Int
  message : String
deriving Repr, DecidableEq

/-- Outcome of the first delivery attempt (message.reply, line 225).
The code catches discord.HTTPException without distinguishing why the
reply failed (comment at lines 227-228: there is no specific error code
for a deleted origin message), so both failure reasons take the same
branch. -/
inductive ReplyOutcome where
  | ok
  | failedMessageGone
  | failedOther
deriving Repr, DecidableEq

/-- Snapshot of a guild as seen through the discord gateway cache:
mousey.get_guild, guild.unavailable, guild.get_channel,
channel.permissions_for(guild.me).send_messages, guild.get_member and
channel.permissions_for(member).mention_everyone (lines 184-218). -/
structure GuildInfo where
  unavailable : Bool
  hasChannel : Nat → Bool
  canSend : Nat → Bool
  member : Nat → Option Bool

/-- The external world one loop run executes against: the gateway cache,
the outcome of delivery attempts per reminder id, and per-iteration
injection of a transport failure of the store fetch (any exception other
than NotFound raised by mousey.api.get_reminders). -/
structure Env where
  guilds : Nat → Option GuildInfo
  replyOutcome : Nat → ReplyOutcome
  fetchFails : Nat → Bool

/-- The emoji constant PURRL imported in plugin.py line 27; it is defined
outside src/ and its exact value is irrelevant to every claim. -/
def PURRL : String := "purrl"

/-- Modelled from the spec: human_delta from utils (imported in plugin.py
line 28, not in src/) renders an elapsed duration as text; only the fact
that both delivery attempts share one rendered string matters here. -/
def human_delta (d : Int) : String := toString d

/-- discord.utils.snowflake_time (line 205): the creation time encoded in
a message id, here truncated to seconds. -/
def snowflake_time (mid : Nat) : Int := (((mid >>> 22) + 1420070400000) / 1000 : Nat)

/-- Ordering of reminders by due time, the order of the fetch result. -/
def dueLE (a b : Reminder) : Prop := a.expires_at ≤ b.expires_at

instance : DecidableRel dueLE := fun a b => inferInstanceAs (Decidable (a.expires_at ≤ b.expires_at))

instance : IsTotal Reminder dueLE := ⟨fun a b => Int.le_total a.expires_at b.expires_at⟩

instance : IsTrans Reminder dueLE := ⟨fun _ _ _ h h2 => le_trans h h2⟩

/-- Modelled from the spec: the external ReminderStore (the backend
behind mousey.api.get_reminders, not in src/) returns the pending
reminders of this shard ordered by due time, and reports NotFound when
there are none (the empty list here). -/
def sortByDue (store : List Reminder) : List Reminder := List.insertionSort dueLE store

/-- Allowed-mentions policy and content of a delivery attempt
(lines 211-221): discord.AllowedMentions(everyone, users=True,
replied_user=True) together with the message text. -/
structure Message where
  content : String
  everyone : Bool
  users : Bool
  repliedUser : Bool
deriving Repr, DecidableEq

/-- What the firing portion of one loop iteration (lines 184-234) does to
a single reminder: which delivery attempts are made (with what content
and mention policy), whether the reminder is deleted, and whether it is
rescheduled to a new due time. -/
structure FireOutcome where
  replyMsg : Option Message
  fallbackMsg : Option Message
  deleted : Bool
  newDue : Option Int
deriving Repr, DecidableEq

/-- Lines 202-221 of plugin.py: the notification text (user mention,
body, humanized age computed from the origin message id) and the
allowed-mentions policy (everyone only when the owner is still a member
with the mention-everyone permission; users and replied_user always). -/
def reminderMessage (g : GuildInfo) (now : Int) (r : Reminder) : Message :=
  let created_at := snowflake_time r.message_id
  let created := human_delta (now - created_at)
  let content := "Hey <@!" ++ toString r.user_id ++ "> " ++ PURRL ++
    "! You asked to be reminded about " ++ r.message ++ " " ++ created ++ " ago."
  let everyone :=
    match g.member r.user_id with
    | none => false
    | some canEveryone => canEveryone
  ⟨content, everyone, true, true⟩

/-- Lines 184-234 of plugin.py: resolve the destination, then delete,
reschedule by five minutes, or attempt delivery (reply, falling back to
a plain send on HTTPException) and delete. -/
def fireReminder (env : Env) (now : Int) (r : Reminder) : FireOutcome :=
  match env.guilds r.guild_id with
  | none => ⟨none, none, true, none⟩
  | some g =>
    if g.unavailable then
      -- Reschedule until the guild is hopefully available again (lines 190-194)
      ⟨none, none, false, some (r.expires_at + 5 * 60)⟩
    else if !g.hasChannel r.channel_id || !g.canSend r.channel_id then
      -- channel gone or missing send permission (lines 196-200)
      ⟨none, none, true, none⟩
    else
      let msg := reminderMessage g now r
      match env.replyOutcome r.id with
      | .ok => ⟨some msg, none, true, none⟩
      | .failedMessageGone => ⟨some msg, some msg, true, none⟩
      | .failedOther => ⟨some msg, some msg, true, none⟩

/-- Observable events of a loop run: setting the wakeup and sleeping
until a due time (lines 181-182), the two delivery attempts
(lines 225 and 230), deletion and rescheduling (lines 187, 193, 199,
234). A replied event records the due time and the wall time at which
the attempt happens. -/
inductive Ev where
  | waited (id : Nat) (due : Int)
  | replied (id : Nat) (due : Int) (time : Int) (msg : Message)
  | fellBack (id : Nat) (msg : Message)
  | deletedEv (id : Nat)
  | rescheduledEv (id : Nat) (newDue : Int)
deriving Repr, DecidableEq

/-- The delivery-attempt events produced by one firing. -/
def deliveryEvents (r : Reminder) (now1 : Int) (fo : FireOutcome) : List Ev :=
  (match fo.replyMsg with
   | some m => [Ev.replied r.id r.expires_at now1 m]
   | none => []) ++
  (match fo.fallbackMsg with
   | some m => [Ev.fellBack r.id m]
   | none => [])

/-- Result of one loop iteration: events, the store after the iteration,
the _next field, and the clock. -/
structure IterResult where
  events : List Ev
  store : List Reminder
  next : Option Int
  now : Int
deriving Repr

/-- One iteration of the while loop in _fulfill_reminders acting on the
fetched head reminder r (lines 178-234): set _next, sleep until the due
time (discord.utils.sleep_until never wakes early, so the clock becomes
max now due), then fire.  _delete_reminder and _reschedule_reminder both
clear _next (lines 237 and 245); deletion removes the id from the store,
rescheduling writes the new due time back (the backend update/delete,
modelled from the spec as single-row operations). -/
def loopIter (env : Env) (now : Int) (store : List Reminder) (r : Reminder) : IterResult :=
  let now1 := max now r.expires_at
  let fo := fireReminder env now1 r
  let tail :=
    if fo.deleted then deliveryEvents r now1 fo ++ [Ev.deletedEv r.id]
    else
      match fo.newDue with
      | some d => [Ev.rescheduledEv r.id d]
      | none => []
  let store1 :=
    if fo.deleted then store.filter (fun x => x.id != r.id)
    else
      match fo.newDue with
      | some d => store.map (fun x => if x.id == r.id then { x with expires_at := d } else x)
      | none => store
  let next1 : Option Int :=
    if fo.deleted then none
    else
      match fo.newDue with
      | some _ => none
      | none => some r.expires_at
  ⟨Ev.waited r.id r.expires_at :: tail, store1, next1, now1⟩

/-- How a run of _fulfill_reminders ends: returned models the
"except NotFound: return" at lines 175-176, crashed models an exception
escaping the while loop (nothing else in the body catches it), fuelOut
means the loop is still running after the given number of iterations. -/
inductive LoopOutcome where
  | returned
  | crashed
  | fuelOut
deriving Repr, DecidableEq

/-- Result of running the loop for up to a given number of iterations. -/
structure RunResult where
  events : List Ev
  outcome : LoopOutcome
  store : List Reminder
  next : Option Int
  now : Int
deriving Repr

/-- The while loop of _fulfill_reminders (lines 172-234), fuel-bounded:
each iteration fetches the ordered reminders of this shard, returns on
NotFound (empty store), crashes if the fetch raises anything else, and
otherwise processes the head reminder with loopIter. -/
def runLoop (env : Env) : Nat → Nat → Int → List Reminder → Option Int → RunResult
  | 0, _, now, store, next => ⟨[], .fuelOut, store, next, now⟩
  | fuel + 1, step, now, store, next =>
    if env.fetchFails step then ⟨[], .crashed, store, next, now⟩
    else
      match sortByDue store with
      | [] => ⟨[], .returned, store, next, now⟩
      | r :: _ =>
        let it := loopIter env now store r
        let rest := runLoop env fuel (step + 1) it.now it.store it.next
        ⟨it.events ++ rest.events, rest.outcome, rest.store, rest.next, rest.now⟩

/-- Line 76 of plugin.py: the condition under which creating a reminder
cancels and restarts the scheduling task
(if self._next is None or self._next > expires). -/
def remind_restart (next : Option Int) (expires : Int) : Bool :=
  match next with
  | none => true
  | some n => decide (n > expires)

/-- Lines 158-161 of plugin.py: the condition under which a cancel
command restarts the scheduling task
(if deleted: if self._next is not None: restart). -/
def cancel_restart (deleted : Nat) (next : Option Int) : Bool :=
  decide (deleted ≠ 0) && decide (next ≠ none)

/-- Modelled from the spec: mousey.api.get_reminder(idx) (backend not in
src/) looks a reminder up by id, NotFound when absent. -/
def get_reminder (store : List Reminder) (idx : Nat) : Option Reminder :=
  store.find? (fun r => r.id == idx)

/-- One pass of the loop body of remind_cancel (lines 142-156): look the
id up, skip on NotFound, skip when the requester does not own it,
otherwise delete it and count it. -/
def cancel_step (uid : Nat) (acc : List Reminder × Nat) (idx : Nat) : List Reminder × Nat :=
  match get_reminder acc.1 idx with
  | none => acc
  | some r =>
    if r.user_id ≠ uid then acc
    else (acc.1.filter (fun x => x.id != idx), acc.2 + 1)

/-- The whole for loop of remind_cancel over the requested ids
(lines 140-156), returning the store it leaves behind and the number of
reminders deleted. -/
def remind_cancel_run (store : List Reminder) (uid : Nat) (ids : List Nat) : List Reminder × Nat :=
  ids.foldl (cancel_step uid) (store, 0)

/-- Modelled from the spec: mousey.api.delete_reminder(idx) (backend not
in src/) deletes by id, reporting NotFound when the id is absent. -/
def delete_reminder_api (store : List Reminder) (idx : Nat) : Except Unit (List Reminder) :=
  if store.any (fun r => r.id == idx) then .ok (store.filter (fun r => r.id != idx))
  else .error ()

/-- Reminders._delete_reminder (lines 236-242): clear _next, delete by
id, swallow NotFound.  Returns the store and the new _next; the return
type shows no NotFound propagates to the caller. -/
def delete_reminder (store : List Reminder) (idx : Nat) : List Reminder × Option Int :=
  match delete_reminder_api store idx with
  | .ok st => (st, none)
  | .error _ => (store, none)

/-- The delivery attempts of an event trace, as (due, time) pairs. -/
def fires : List Ev → List (Int × Int)
  | [] => []
  | Ev.replied _ due time _ :: rest => (due, time) :: fires rest
  | _ :: rest => fires rest

/-- The first waited event of a trace: the id and due time of the first
reminder the loop sets _next to and sleeps on. -/
def firstWaited : List Ev → Option (Nat × Int)
  | [] => none
  | Ev.waited i d :: _ => some (i, d)
  | _ :: rest => firstWaited rest

/-- The destination of a reminder is fully usable: guild cached and
available, channel present, bot may send. -/
def DestOk (env : Env) (r : Reminder) : Prop :=
  ∃ g, env.guilds r.guild_id = some g ∧ g.unavailable = false ∧
    g.hasChannel r.channel_id = true ∧ g.canSend r.channel_id = true

/-! ### Concrete fixtures used by witnesses and counterexamples -/

/-- A concrete reminder. -/
def r0 : Reminder := ⟨1, 10, 20, 30, 40, 100, "water the plants"⟩

/-- A second concrete reminder, due later than r0. -/
def r1 : Reminder := ⟨2, 10, 20, 30, 41, 250, "stretch"⟩

/-- A guild whose destination channel is fully usable. -/
def gAvail : GuildInfo := ⟨false, fun _ => true, fun _ => true, fun _ => none⟩

/-- A guild in a transient outage. -/
def gUnavail : GuildInfo := ⟨true, fun _ => true, fun _ => true, fun _ => none⟩

/-- An environment in which no guild is cached. -/
def envGone : Env := ⟨fun _ => none, fun _ => .ok, fun _ => false⟩

/-- An environment with a usable destination whose reply attempts fail
because the origin message is gone. -/
def envReplyGone : Env := ⟨fun _ => some gAvail, fun _ => .failedMessageGone, fun _ => false⟩

/-- An environment with a usable destination and successful replies. -/
def envOk : Env := ⟨fun _ => some gAvail, fun _ => .ok, fun _ => false⟩

/-- An environment with an unavailable guild. -/
def envUnavail : Env := ⟨fun _ => some gUnavail, fun _ => .ok, fun _ => false⟩

/-- An environment whose store fetch raises a transport error. -/
def envFetchFail : Env := ⟨fun _ => some gAvail, fun _ => .ok, fun _ => true⟩

/-! ### Theorems -/

/-- C3: a reminder whose host guild is gone from the cache, whose
destination channel no longer exists, or where the bot may not send, is
deleted from the store with no delivery attempt at all. -/
theorem C3_permanent_failure_deletes_without_attempt
    (env : Env) (now : Int) (store : List Reminder) (r : Reminder)
    (h : env.guilds r.guild_id = none ∨
      ∃ g, env.guilds r.guild_id = some g ∧ g.unavailable = false ∧
        (g.hasChannel r.channel_id = false ∨ g.canSend r.channel_id = false)) :
    fireReminder env (max now r.expires_at) r = ⟨none, none, true, none⟩ ∧
    (loopIter env now store r).events = [Ev.waited r.id r.expires_at, Ev.deletedEv r.id] ∧
    (loopIter env now store r).store = store.filter (fun x => x.id != r.id) := by
  have hfo : fireReminder env (max now r.expires_at) r = ⟨none, none, true, none⟩ := by
    rcases h with hg | ⟨g, hg, hu, hcase⟩
    · simp [fireReminder, hg]
    · rcases hcase with hch | hcs
      · simp [fireReminder, hg, hu, hch]
      · simp [fireReminder, hg, hu, hcs]
  refine ⟨hfo, ?_, ?_⟩ <;> simp [loopIter, hfo, deliveryEvents]

/-- Witness for C3 at a concrete input: guild absent from the cache. -/
theorem C3_permanent_failure_witness :
    fireReminder envGone (max 0 r0.expires_at) r0 = ⟨none, none, true, none⟩ ∧
    (loopIter envGone 0 [r0] r0).events = [Ev.waited r0.id r0.expires_at, Ev.deletedEv r0.id] ∧
    (loopIter envGone 0 [r0] r0).store = [r0].filter (fun x => x.id != r0.id) :=
  C3_permanent_failure_deletes_without_attempt envGone 0 [r0] r0 (Or.inl rfl)

/-- C4: a reminder whose guild is temporarily unavailable is neither
delivered nor deleted: the iteration only reschedules it five minutes
later, the store keeps the same number of rows, and a row with the same
id and the pushed-back due time remains live. -/
theorem C4_transient_outage_postpones
    (env : Env) (now : Int) (store : List Reminder) (r : Reminder) (g : GuildInfo)
    (hg : env.guilds r.guild_id = some g) (hu : g.unavailable = true) (hmem : r ∈ store) :
    (loopIter env now store r).events =
      [Ev.waited r.id r.expires_at, Ev.rescheduledEv r.id (r.expires_at + 5 * 60)] ∧
    (loopIter env now store r).store.length = store.length ∧
    ∃ x ∈ (loopIter env now store r).store,
      x.id = r.id ∧ x.expires_at = r.expires_at + 5 * 60 := by
  have hfo : fireReminder env (max now r.expires_at) r =
      ⟨none, none, false, some (r.expires_at + 5 * 60)⟩ := by
    simp [fireReminder, hg, hu]
  refine ⟨?_, ?_, ?_⟩
  · simp [loopIter, hfo]
  · simp [loopIter, hfo]
  · refine ⟨{ r with expires_at := r.expires_at + 5 * 60 }, ?_, rfl, rfl⟩
    simp only [loopIter, hfo]
    simp only [Bool.false_eq_true, if_false]
    exact List.mem_map.2 ⟨r, hmem, by simp⟩

/-- Witness for C4 at a concrete input. -/
theorem C4_transient_outage_witness :
    (loopIter envUnavail 0 [r0] r0).events =
      [Ev.waited r0.id r0.expires_at, Ev.rescheduledEv r0.id (r0.expires_at + 5 * 60)] ∧
    (loopIter envUnavail 0 [r0] r0).store.length = [r0].length ∧
    ∃ x ∈ (loopIter envUnavail 0 [r0] r0).store,
      x.id = r0.id ∧ x.expires_at = r0.expires_at + 5 * 60 :=
  C4_transient_outage_postpones envUnavail 0 [r0] r0 gUnavail rfl rfl (by decide)

/-- C5: with a usable destination, the reminder is deleted whatever the
delivery attempts do; a failing reply triggers exactly one fallback send
with the identical message (same content and mention policy), after
which the reminder is still deleted; a successful reply triggers no
fallback. -/
theorem C5_fallback_once_identical_then_delete
    (env : Env) (now : Int) (store : List Reminder) (r : Reminder) (g : GuildInfo)
    (hg : env.guilds r.guild_id = some g) (hu : g.unavailable = false)
    (hch : g.hasChannel r.channel_id = true) (hcs : g.canSend r.channel_id = true) :
    (fireReminder env (max now r.expires_at) r).deleted = true ∧
    (env.replyOutcome r.id = .failedMessageGone →
      ∃ m, (fireReminder env (max now r.expires_at) r).replyMsg = some m ∧
        (fireReminder env (max now r.expires_at) r).fallbackMsg = some m ∧
        (loopIter env now store r).events =
          [Ev.waited r.id r.expires_at,
           Ev.replied r.id r.expires_at (max now r.expires_at) m,
           Ev.fellBack r.id m,
           Ev.deletedEv r.id]) ∧
    (env.replyOutcome r.id = .ok →
      (fireReminder env (max now r.expires_at) r).fallbackMsg = none) := by
  refine ⟨?_, ?_, ?_⟩
  · rcases ho : env.replyOutcome r.id <;> simp [fireReminder, hg, hu, hch, hcs, ho]
  · intro ho
    have hfo : fireReminder env (max now r.expires_at) r =
        ⟨some (reminderMessage g (max now r.expires_at) r),
         some (reminderMessage g (max now r.expires_at) r), true, none⟩ := by
      simp [fireReminder, hg, hu, hch, hcs, ho]
    refine ⟨reminderMessage g (max now r.expires_at) r, ?_, ?_, ?_⟩
    · simp [hfo]
    · simp [hfo]
    · simp [loopIter, hfo, deliveryEvents]
  · intro ho
    simp [fireReminder, hg, hu, hch, hcs, ho]

/-- Witness for C5 at a concrete input: reply fails, one identical
fallback is sent, the reminder is deleted. -/
theorem C5_fallback_once_witness :
    ∃ m, (fireReminder envReplyGone (max 0 r0.expires_at) r0).replyMsg = some m ∧
      (fireReminder envReplyGone (max 0 r0.expires_at) r0).fallbackMsg = some m ∧
      (loopIter envReplyGone 0 [r0] r0).events =
        [Ev.waited r0.id r0.expires_at,
         Ev.replied r0.id r0.expires_at (max 0 r0.expires_at) m,
         Ev.fellBack r0.id m,
         Ev.deletedEv r0.id] :=
  (C5_fallback_once_identical_then_delete envReplyGone 0 [r0] r0 gAvail
    rfl rfl rfl rfl).2.1 rfl

/-- C6: the delete-after-firing operation is total and idempotent: when
the id is absent it is a no-op success returning the store unchanged
(NotFound is swallowed, nothing is raised), a second delete of the same
id leaves the store unchanged, and the operation always clears the
recorded wakeup. -/
theorem C6_delete_idempotent_total (store : List Reminder) (idx : Nat) :
    (store.all (fun r => r.id != idx) = true → delete_reminder store idx = (store, none)) ∧
    delete_reminder (delete_reminder store idx).1 idx = ((delete_reminder store idx).1, none) ∧
    (delete_reminder store idx).2 = none := by
  refine ⟨?_, ?_, ?_⟩
  · intro h
    have hany : store.any (fun r => r.id == idx) = false := by
      simp only [List.any_eq_false]
      intro x hx
      have := List.all_eq_true.1 h x hx
      simpa using this
    simp [delete_reminder, delete_reminder_api, hany]
  · rcases hany : store.any (fun r => r.id == idx) with _ | _
    · simp [delete_reminder, delete_reminder_api, hany]
    · have hany2 : (store.filter (fun r => r.id != idx)).any (fun r => r.id == idx) = false := by
        simp only [List.any_eq_false]
        intro x hx
        have := List.of_mem_filter hx
        simpa using this
      simp [delete_reminder, delete_reminder_api, hany, hany2]
  · rcases hany : store.any (fun r => r.id == idx) with _ | _ <;>
      simp [delete_reminder, delete_reminder_api, hany]

/-- Witness for C6 at concrete inputs: deleting an absent id is a no-op
success, and deleting the same id twice leaves the store unchanged. -/
theorem C6_delete_idempotent_witness :
    delete_reminder [r0] 2 = ([r0], none) ∧
    delete_reminder (delete_reminder [r0] 1).1 1 = ((delete_reminder [r0] 1).1, none) :=
  ⟨(C6_delete_idempotent_total [r0] 2).1 (by decide),
   (C6_delete_idempotent_total [r0] 1).2.1⟩

/-- C10: the postponed due time of a reminder in an unavailable guild is
always the fetched due time plus exactly five minutes, for every clock
value (so it is computed from the original due time, not from the
current time), and when the wakeup was delayed by more than five minutes
the new due time already lies in the past. -/
theorem C10_postpone_from_original_due
    (env : Env) (r : Reminder) (g : GuildInfo)
    (hg : env.guilds r.guild_id = some g) (hu : g.unavailable = true) :
    (∀ now : Int, (fireReminder env now r).newDue = some (r.expires_at + 5 * 60)) ∧
    (∀ now : Int, r.expires_at + 5 * 60 < now →
      ∃ d, (fireReminder env now r).newDue = some d ∧ d < now) := by
  have h : ∀ now : Int, (fireReminder env now r).newDue = some (r.expires_at + 5 * 60) := by
    intro now
    simp [fireReminder, hg, hu]
  exact ⟨h, fun now hlt => ⟨r.expires_at + 5 * 60, h now, hlt⟩⟩

/-- Witness for C10 at a concrete input: r0 is due at 100, the clock
reached 1000, the postponed due time 400 is already past. -/
theorem C10_postpone_witness :
    (fireReminder envUnavail 1000 r0).newDue = some (r0.expires_at + 5 * 60) ∧
    ∃ d, (fireReminder envUnavail 1000 r0).newDue = some d ∧ d < 1000 :=
  ⟨(C10_postpone_from_original_due envUnavail r0 gUnavail rfl rfl).1 1000,
   (C10_postpone_from_original_due envUnavail r0 gUnavail rfl rfl).2 1000 (by decide)⟩

/-- Helper: the first event of a trace that starts with a waited event. -/
theorem firstWaited_waited_cons (i : Nat) (d : Int) (l : List Ev) :
    firstWaited (Ev.waited i d :: l) = some (i, d) := rfl

/-- C7 counterexample: on an empty store the loop does not block for a
signal; the fetch raises NotFound and the coroutine returns, so the run
ends in the returned outcome after zero events even with fuel left. -/
theorem C7_counterexample_empty_store_returns :
    (runLoop envOk 3 0 0 [] none).outcome = LoopOutcome.returned ∧
    (runLoop envOk 3 0 0 [] none).events = [] := ⟨rfl, rfl⟩

/-- C7 (amended): when the fetch finds no reminders the loop returns
(the task terminates) rather than blocking; recovery relies on the
producer side, which restarts the task on creation whenever no wakeup is
recorded. -/
theorem C7_amended_empty_fetch_terminates
    (env : Env) (fuel step : Nat) (now : Int) (next : Option Int) (expires : Int)
    (h : env.fetchFails step = false) :
    (runLoop env (fuel + 1) step now [] next).outcome = LoopOutcome.returned ∧
    (runLoop env (fuel + 1) step now [] next).events = [] ∧
    remind_restart none expires = true := by
  refine ⟨?_, ?_, rfl⟩ <;> simp [runLoop, h, sortByDue]

/-- Witness for the amended C7 at a concrete input. -/
theorem C7_amended_witness :
    (runLoop envOk 4 1 7 [] (some 99)).outcome = LoopOutcome.returned ∧
    (runLoop envOk 4 1 7 [] (some 99)).events = [] ∧
    remind_restart none 42 = true :=
  C7_amended_empty_fetch_terminates envOk 3 1 7 (some 99) 42 rfl

/-- C8 counterexample: a transport-level fetch error crashes the
scheduling loop at a concrete input (no report, no backoff, no retry),
contradicting the claim that such an error never crashes the loop. -/
theorem C8_counterexample_transport_error_crashes :
    (runLoop envFetchFail 3 0 0 [r0] none).outcome = LoopOutcome.crashed ∧
    (runLoop envFetchFail 3 0 0 [r0] none).events = [] := ⟨rfl, rfl⟩

/-- C8 (amended): any store error other than NotFound raised while
fetching escapes the loop body (nothing in it catches such errors) and
terminates the run at once: no event is emitted afterwards, no backoff
or retry happens, and the store is left untouched. -/
theorem C8_amended_transport_error_terminates
    (env : Env) (fuel step : Nat) (now : Int) (store : List Reminder) (next : Option Int)
    (h : env.fetchFails step = true) :
    runLoop env (fuel + 1) step now store next =
      ⟨[], LoopOutcome.crashed, store, next, now⟩ := by
  simp [runLoop, h]

/-- Witness for the amended C8 at a concrete input. -/
theorem C8_amended_witness :
    runLoop envFetchFail 1 0 0 [r0] none =
      ⟨[], LoopOutcome.crashed, [r0], none, 0⟩ :=
  C8_amended_transport_error_terminates envFetchFail 0 0 0 [r0] none rfl

/-- Helper: the deleted counter of the cancel loop never decreases. -/
theorem cancel_run_del_mono (uid : Nat) (ids : List Nat) :
    ∀ (st : List Reminder) (del : Nat),
      del ≤ (ids.foldl (cancel_step uid) (st, del)).2 := by
  induction ids with
  | nil => intro st del; simp
  | cons i rest ih =>
    intro st del
    rw [List.foldl_cons]
    rcases hfind : get_reminder st i with _ | r
    · have hstep : cancel_step uid (st, del) i = (st, del) := by
        simp [cancel_step, hfind]
      rw [hstep]
      exact ih st del
    · by_cases huid : r.user_id = uid
      · have hstep : cancel_step uid (st, del) i =
            (st.filter (fun x => x.id != i), del + 1) := by
          simp [cancel_step, hfind, huid]
        rw [hstep]
        exact le_trans (Nat.le_succ del) (ih _ (del + 1))
      · have hstep : cancel_step uid (st, del) i = (st, del) := by
          simp [cancel_step, hfind, huid]
        rw [hstep]
        exact ih st del

/-- Helper: if some requested id names a reminder that exists in the
store and is owned by the requester, the cancel loop deletes at least
one reminder. -/
theorem cancel_run_del_pos (uid : Nat) (ids : List Nat) :
    ∀ (st : List Reminder) (del aw : Nat), (st.map Reminder.id).Nodup → aw ∈ ids →
      (∃ r ∈ st, r.id = aw ∧ r.user_id = uid) →
      0 < (ids.foldl (cancel_step uid) (st, del)).2 := by
  induction ids with
  | nil => intro st del aw _ haw _; exact absurd haw (List.not_mem_nil aw)
  | cons i rest ih =>
    rintro st del aw h haw ⟨r, hr, hrid, hruid⟩
    rw [List.foldl_cons]
    rcases hfind : get_reminder st i with _ | q
    · have hfind' : st.find? (fun x => x.id == i) = none := hfind
      have hno : ∀ x ∈ st, x.id ≠ i := by
        intro x hx
        have := List.find?_eq_none.1 hfind' x hx
        simpa using this
      have haw' : aw ∈ rest := by
        rcases List.mem_cons.1 haw with rfl | h2
        · exact absurd hrid (hno r hr)
        · exact h2
      have hstep : cancel_step uid (st, del) i = (st, del) := by
        simp [cancel_step, hfind]
      rw [hstep]
      exact ih st del aw h haw' ⟨r, hr, hrid, hruid⟩
    · have hfind' : st.find? (fun x => x.id == i) = some q := hfind
      have hqmem : q ∈ st := List.mem_of_find?_eq_some hfind'
      have hqid : q.id = i := by simpa using List.find?_some hfind'
      by_cases huid : q.user_id = uid
      · have hstep : cancel_step uid (st, del) i =
            (st.filter (fun x => x.id != i), del + 1) := by
          simp [cancel_step, hfind, huid]
        rw [hstep]
        exact lt_of_lt_of_le (Nat.succ_pos del)
          (cancel_run_del_mono uid rest (st.filter (fun x => x.id != i)) (del + 1))
      · rcases List.mem_cons.1 haw with rfl | haw'
        · have : r = q := List.inj_on_of_nodup_map h hr hqmem (by rw [hrid, hqid])
          exact absurd (this ▸ hruid) huid
        · have hstep : cancel_step uid (st, del) i = (st, del) := by
            simp [cancel_step, hfind, huid]
          rw [hstep]
          exact ih st del aw h haw' ⟨r, hr, hrid, hruid⟩

/-- Helper: the store the cancel loop leaves behind is exactly the old
store minus the requested reminders owned by the requester. -/
theorem cancel_run_store_eq (uid : Nat) (ids : List Nat) :
    ∀ (st : List Reminder) (del : Nat), (st.map Reminder.id).Nodup →
      (ids.foldl (cancel_step uid) (st, del)).1 =
        st.filter (fun r => !(ids.contains r.id && r.user_id == uid)) := by
  induction ids with
  | nil => intro st del _; simp
  | cons i rest ih =>
    intro st del h
    rw [List.foldl_cons]
    rcases hfind : get_reminder st i with _ | r
    · have hfind' : st.find? (fun x => x.id == i) = none := hfind
      have hno : ∀ x ∈ st, (x.id == i) = false := by
        intro x hx
        have := List.find?_eq_none.1 hfind' x hx
        simpa using this
      have hstep : cancel_step uid (st, del) i = (st, del) := by
        simp [cancel_step, hfind]
      rw [hstep, ih st del h]
      apply List.filter_congr
      intro x hx
      have hxi : ¬ x.id = i := by simpa using hno x hx
      simp [hxi]
    · have hfind' : st.find? (fun x => x.id == i) = some r := hfind
      have hrmem : r ∈ st := List.mem_of_find?_eq_some hfind'
      have hrid : r.id = i := by simpa using List.find?_some hfind'
      by_cases huid : r.user_id = uid
      · have hstep : cancel_step uid (st, del) i =
            (st.filter (fun x => x.id != i), del + 1) := by
          simp [cancel_step, hfind, huid]
        rw [hstep]
        have h2 : ((st.filter (fun x => x.id != i)).map Reminder.id).Nodup :=
          ((List.filter_sublist st).map Reminder.id).nodup h
        rw [ih _ (del + 1) h2, List.filter_filter]
        apply List.filter_congr
        intro x hx
        by_cases hxi : x.id = i
        · have hxr : x = r := List.inj_on_of_nodup_map h hx hrmem (by rw [hxi, hrid])
          subst hxr
          simp [hxi, huid]
        · simp [hxi]
      · have hstep : cancel_step uid (st, del) i = (st, del) := by
          simp [cancel_step, hfind, huid]
        rw [hstep, ih st del h]
        apply List.filter_congr
        intro x hx
        by_cases hxi : x.id = i
        · have hxr : x = r := List.inj_on_of_nodup_map h hx hrmem (by rw [hxi, hrid])
          subst hxr
          have hbeq : (x.user_id == uid) = false := by simpa using huid
          simp [hxi, hbeq]
        · simp [hxi]

/-- C9: the cancel command deletes exactly the requested reminders that
exist in the store and are owned by the requester; a requested id that
is absent, or whose reminder belongs to someone else, is skipped with no
store mutation at all. -/
theorem C9_cancel_only_by_owner (store : List Reminder) (uid : Nat) (ids : List Nat)
    (h : (store.map Reminder.id).Nodup) :
    (remind_cancel_run store uid ids).1 =
      store.filter (fun r => !(ids.contains r.id && r.user_id == uid)) ∧
    (∀ r ∈ store, r ∉ (remind_cancel_run store uid ids).1 →
      r.id ∈ ids ∧ r.user_id = uid) ∧
    (∀ d idx, get_reminder store idx = none →
      cancel_step uid (store, d) idx = (store, d)) ∧
    (∀ d idx r, get_reminder store idx = some r → r.user_id ≠ uid →
      cancel_step uid (store, d) idx = (store, d)) := by
  have h1 : (remind_cancel_run store uid ids).1 =
      store.filter (fun r => !(ids.contains r.id && r.user_id == uid)) :=
    cancel_run_store_eq uid ids store 0 h
  refine ⟨h1, ?_, ?_, ?_⟩
  · intro r hr hnot
    rw [h1] at hnot
    have h2 : (ids.contains r.id && r.user_id == uid) = true := by
      by_contra hc
      exact hnot (List.mem_filter.2 ⟨hr, by rw [Bool.eq_false_iff.2 hc]; rfl⟩)
    simp only [Bool.and_eq_true, beq_iff_eq] at h2
    exact ⟨by simpa using h2.1, h2.2⟩
  · intro d idx hidx
    simp [cancel_step, hidx]
  · intro d idx r hidx hne
    simp [cancel_step, hidx, hne]

/-- Witness for C9 at a concrete input: requesting ids 1 (owned, present)
and 5 (absent) as user 10 deletes exactly r0. -/
theorem C9_cancel_only_by_owner_witness :
    (remind_cancel_run [r0, r1] 10 [1, 5]).1 =
      [r0, r1].filter (fun r => !([1, 5].contains r.id && r.user_id == 10)) ∧
    (∀ r ∈ [r0, r1], r ∉ (remind_cancel_run [r0, r1] 10 [1, 5]).1 →
      r.id ∈ [1, 5] ∧ r.user_id = 10) ∧
    (∀ d idx, get_reminder [r0, r1] idx = none →
      cancel_step 10 ([r0, r1], d) idx = ([r0, r1], d)) ∧
    (∀ d idx r, get_reminder [r0, r1] idx = some r → r.user_id ≠ 10 →
      cancel_step 10 ([r0, r1], d) idx = ([r0, r1], d)) :=
  C9_cancel_only_by_owner [r0, r1] 10 [1, 5] (by decide)

/-- C1: creating a reminder restarts the scheduling task when no wakeup
is recorded or the new due time is strictly earlier than the recorded
wakeup; a (re)started loop fetches and first waits on an earliest
reminder of the store; cancelling a requested, owned reminder while a
wakeup is set restarts the task; and a restarted loop over an empty
store emits no events (in particular it fires nothing). -/
theorem C1_signal_and_refetch
    (env : Env) (store : List Reminder) (now : Int) (fuel : Nat)
    (n expires : Int) (ids : List Nat) (uid aw : Nat)
    (hf : env.fetchFails 0 = false) :
    remind_restart none expires = true ∧
    (expires < n → remind_restart (some n) expires = true) ∧
    (store ≠ [] → ∃ r ∈ store,
      firstWaited (runLoop env (fuel + 1) 0 now store none).events =
        some (r.id, r.expires_at) ∧
      ∀ x ∈ store, r.expires_at ≤ x.expires_at) ∧
    (aw ∈ ids → (∃ r ∈ store, r.id = aw ∧ r.user_id = uid) →
      (store.map Reminder.id).Nodup →
      cancel_restart (remind_cancel_run store uid ids).2 (some n) = true) ∧
    (runLoop env (fuel + 1) 0 now [] none).events = [] := by
  refine ⟨rfl, ?_, ?_, ?_, ?_⟩
  · intro hlt
    exact decide_eq_true hlt
  · intro hne
    rcases hs : sortByDue store with _ | ⟨r, rest⟩
    · have hp := List.perm_insertionSort dueLE store
      rw [show List.insertionSort dueLE store = sortByDue store from rfl, hs] at hp
      exact absurd hp.symm.eq_nil hne
    · have hp := List.perm_insertionSort dueLE store
      rw [show List.insertionSort dueLE store = sortByDue store from rfl, hs] at hp
      have hrmem : r ∈ store := hp.mem_iff.1 (List.mem_cons_self r rest)
      have hsorted := List.sorted_insertionSort dueLE store
      rw [show List.insertionSort dueLE store = sortByDue store from rfl, hs] at hsorted
      refine ⟨r, hrmem, ?_, ?_⟩
      · simp only [runLoop, hf, Bool.false_eq_true, if_false, hs]
        simp [loopIter, firstWaited_waited_cons]
      · intro x hx
        rcases List.mem_cons.1 (hp.mem_iff.2 hx) with rfl | hx2
        · exact le_refl _
        · exact List.rel_of_sorted_cons hsorted x hx2
  · intro haw hex hnodup
    have hpos : 0 < (remind_cancel_run store uid ids).2 :=
      cancel_run_del_pos uid ids store 0 aw hnodup haw hex
    simp only [cancel_restart, Bool.and_eq_true, decide_eq_true_eq]
    exact ⟨Nat.pos_iff_ne_zero.mp hpos, by simp⟩
  · simp [runLoop, hf, sortByDue]

/-- Witness for C1 at concrete inputs: two reminders, the earlier one
owned by user 10 and requested for cancellation. -/
theorem C1_signal_and_refetch_witness :
    remind_restart none 100 = true ∧
    remind_restart (some 250) 100 = true ∧
    (∃ r ∈ [r0, r1],
      firstWaited (runLoop envOk 4 0 0 [r0, r1] none).events =
        some (r.id, r.expires_at) ∧
      ∀ x ∈ [r0, r1], r.expires_at ≤ x.expires_at) ∧
    cancel_restart (remind_cancel_run [r0, r1] 10 [1]).2 (some 250) = true ∧
    (runLoop envOk 4 0 0 [] none).events = [] := by
  have h := C1_signal_and_refetch envOk [r0, r1] 0 3 250 100 [1] 10 1 rfl
  exact ⟨h.1, h.2.1 (by decide), h.2.2.1 (by decide),
    h.2.2.2.1 (by decide) ⟨r0, by decide, by decide⟩ (by decide), h.2.2.2.2⟩

/-- Helper: fires distributes over trace concatenation. -/
theorem fires_append (a b : List Ev) : fires (a ++ b) = fires a ++ fires b := by
  induction a with
  | nil => rfl
  | cons e t ih => cases e <;> simp [fires, ih]

/-- Helper: the head of the ordered fetch result is a member of the
store with minimal due time. -/
theorem sortByDue_head_min (store : List Reminder) (r : Reminder) (rest : List Reminder)
    (hs : sortByDue store = r :: rest) :
    r ∈ store ∧ ∀ x ∈ store, r.expires_at ≤ x.expires_at := by
  have hp := List.perm_insertionSort dueLE store
  rw [show List.insertionSort dueLE store = sortByDue store from rfl, hs] at hp
  have hsorted := List.sorted_insertionSort dueLE store
  rw [show List.insertionSort dueLE store = sortByDue store from rfl, hs] at hsorted
  refine ⟨hp.mem_iff.1 (List.mem_cons_self r rest), ?_⟩
  intro x hx
  rcases List.mem_cons.1 (hp.mem_iff.2 hx) with rfl | hx2
  · exact le_refl _
  · exact List.rel_of_sorted_cons hsorted x hx2

/-- Helper: with a fully usable destination, one iteration makes exactly
one firing, at the due time of the processed reminder and at wall time
max now due, and removes that reminder from the store. -/
theorem fires_loopIter (env : Env) (now : Int) (store : List Reminder) (r : Reminder)
    (hd : DestOk env r) :
    fires (loopIter env now store r).events = [(r.expires_at, max now r.expires_at)] ∧
    (loopIter env now store r).store = store.filter (fun x => x.id != r.id) ∧
    (loopIter env now store r).now = max now r.expires_at := by
  obtain ⟨g, hg, hu, hch, hcs⟩ := hd
  rcases ho : env.replyOutcome r.id with _ | _ | _
  · have hfo : fireReminder env (max now r.expires_at) r =
        ⟨some (reminderMessage g (max now r.expires_at) r), none, true, none⟩ := by
      simp [fireReminder, hg, hu, hch, hcs, ho]
    refine ⟨?_, ?_, ?_⟩ <;> simp [loopIter, hfo, deliveryEvents, fires]
  · have hfo : fireReminder env (max now r.expires_at) r =
        ⟨some (reminderMessage g (max now r.expires_at) r),
         some (reminderMessage g (max now r.expires_at) r), true, none⟩ := by
      simp [fireReminder, hg, hu, hch, hcs, ho]
    refine ⟨?_, ?_, ?_⟩ <;> simp [loopIter, hfo, deliveryEvents, fires]
  · have hfo : fireReminder env (max now r.expires_at) r =
        ⟨some (reminderMessage g (max now r.expires_at) r),
         some (reminderMessage g (max now r.expires_at) r), true, none⟩ := by
      simp [fireReminder, hg, hu, hch, hcs, ho]
    refine ⟨?_, ?_, ?_⟩ <;> simp [loopIter, hfo, deliveryEvents, fires]

/-- Helper: every firing of a run has its due time bounded below by any
lower bound of the due times of the store the run starts from. -/
theorem runLoop_fires_lb (env : Env) :
    ∀ (fuel : Nat) (store : List Reminder) (step : Nat) (now : Int) (next : Option Int)
      (m : Int),
      (∀ i, env.fetchFails i = false) →
      (∀ r ∈ store, DestOk env r) →
      (∀ r ∈ store, m ≤ r.expires_at) →
      ∀ p ∈ fires (runLoop env fuel step now store next).events, m ≤ p.1 := by
  intro fuel
  induction fuel with
  | zero =>
    intro store step now next m _ _ _ p hp
    simp [runLoop, fires] at hp
  | succ fuel ih =>
    intro store step now next m hf hdest hm p hp
    rcases hs : sortByDue store with _ | ⟨r, rrest⟩
    · simp [runLoop, hf step, hs, fires] at hp
    · obtain ⟨hrmem, hrmin⟩ := sortByDue_head_min store r rrest hs
      obtain ⟨hfir, hstore, hnow⟩ := fires_loopIter env now store r (hdest r hrmem)
      simp only [runLoop, hf step, Bool.false_eq_true, if_false, hs, fires_append,
        List.mem_append] at hp
      rcases hp with hp | hp
      · rw [hfir] at hp
        have := List.mem_singleton.1 hp
        subst this
        exact hm r hrmem
      · rw [hstore] at hp
        refine ih _ (step + 1) _ _ m hf ?_ ?_ p hp
        · intro x hx
          exact hdest x (List.mem_of_mem_filter hx)
        · intro x hx
          exact hm x (List.mem_of_mem_filter hx)

/-- Helper: the due times of the firings of a run are non-decreasing. -/
theorem runLoop_fires_chain (env : Env) :
    ∀ (fuel : Nat) (store : List Reminder) (step : Nat) (now : Int) (next : Option Int),
      (∀ i, env.fetchFails i = false) →
      (∀ r ∈ store, DestOk env r) →
      List.Chain' (fun a b => a.1 ≤ b.1)
        (fires (runLoop env fuel step now store next).events) := by
  intro fuel
  induction fuel with
  | zero =>
    intro store step now next _ _
    simp [runLoop, fires]
  | succ fuel ih =>
    intro store step now next hf hdest
    rcases hs : sortByDue store with _ | ⟨r, rrest⟩
    · simp [runLoop, hf step, hs, fires]
    · obtain ⟨hrmem, hrmin⟩ := sortByDue_head_min store r rrest hs
      obtain ⟨hfir, hstore, hnow⟩ := fires_loopIter env now store r (hdest r hrmem)
      have hdest' : ∀ x ∈ (loopIter env now store r).store, DestOk env x := by
        rw [hstore]
        intro x hx
        exact hdest x (List.mem_of_mem_filter hx)
      have hmin' : ∀ x ∈ (loopIter env now store r).store, r.expires_at ≤ x.expires_at := by
        rw [hstore]
        intro x hx
        exact hrmin x (List.mem_of_mem_filter hx)
      simp only [runLoop, hf step, Bool.false_eq_true, if_false, hs, fires_append]
      rw [hfir, List.singleton_append]
      refine List.Chain'.cons' ?_ ?_
      · exact ih _ (step + 1) _ _ hf hdest'
      · intro y hy
        exact runLoop_fires_lb env fuel _ (step + 1) _ _ r.expires_at hf hdest' hmin' y
          (List.mem_of_mem_head? hy)

/-- Helper: no firing of a run happens before its due time (the wall
time of each delivery attempt is at least the due time slept until). -/
theorem runLoop_fires_early (env : Env) :
    ∀ (fuel : Nat) (store : List Reminder) (step : Nat) (now : Int) (next : Option Int),
      (∀ i, env.fetchFails i = false) →
      (∀ r ∈ store, DestOk env r) →
      ∀ p ∈ fires (runLoop env fuel step now store next).events, p.1 ≤ p.2 := by
  intro fuel
  induction fuel with
  | zero =>
    intro store step now next _ _ p hp
    simp [runLoop, fires] at hp
  | succ fuel ih =>
    intro store step now next hf hdest p hp
    rcases hs : sortByDue store with _ | ⟨r, rrest⟩
    · simp [runLoop, hf step, hs, fires] at hp
    · obtain ⟨hrmem, hrmin⟩ := sortByDue_head_min store r rrest hs
      obtain ⟨hfir, hstore, hnow⟩ := fires_loopIter env now store r (hdest r hrmem)
      simp only [runLoop, hf step, Bool.false_eq_true, if_false, hs, fires_append,
        List.mem_append] at hp
      rcases hp with hp | hp
      · rw [hfir] at hp
        have := List.mem_singleton.1 hp
        subst this
        exact le_max_right now r.expires_at
      · refine ih _ (step + 1) _ _ hf ?_ p hp
        rw [hstore]
        intro x hx
        exact hdest x (List.mem_of_mem_filter hx)

/-- C2: over a store of reminders with distinct due times whose
destinations stay usable, the loop fires in non-decreasing due order
(each iteration processes the head of the ordered fetch result), and no
firing happens before its due time, because the iteration sleeps until
the expiry of the fetched head before acting on it. -/
theorem C2_fires_ordered_never_early
    (env : Env) (store : List Reminder) (fuel step : Nat) (now : Int) (next : Option Int)
    (hf : ∀ i, env.fetchFails i = false)
    (hdest : ∀ r ∈ store, DestOk env r)
    (_hdue : (store.map Reminder.expires_at).Nodup) :
    List.Chain' (fun a b => a.1 ≤ b.1)
      (fires (runLoop env fuel step now store next).events) ∧
    ∀ p ∈ fires (runLoop env fuel step now store next).events, p.1 ≤ p.2 :=
  ⟨runLoop_fires_chain env fuel store step now next hf hdest,
   runLoop_fires_early env fuel store step now next hf hdest⟩

/-- Witness for C2 at a concrete input: two reminders inserted out of
order (the later-due one first). -/
theorem C2_fires_ordered_witness :
    List.Chain' (fun a b => a.1 ≤ b.1)
      (fires (runLoop envOk 5 0 0 [r1, r0] none).events) ∧
    ∀ p ∈ fires (runLoop envOk 5 0 0 [r1, r0] none).events, p.1 ≤ p.2 :=
  C2_fires_ordered_never_early envOk [r1, r0] 5 0 0 none (fun _ => rfl)
    (fun r _ => ⟨gAvail, rfl, rfl, rfl, rfl⟩) (by decide)
